import Mathlib

set_option autoImplicit false

/-!
# Verification of the Hypercane Memento Collection Model

Shallow embedding of `hypercane/reduce/remove_offtopic.py`: the
`HypercaneMementoCollectionModel` class, the batch ingestion loop
`addManyMementos`, and the off-topic classification entry point
`detect_off_topic`, together with proofs of the claims made by the
specification.

External collaborators (the `requests` session, `otmt.generate_raw_urim`,
`aiu.convert_LinkTimeMap_to_dict`, `justext`, `Simhash`, `datetime.strptime`)
are modelled as uninterpreted functions gathered in a `Collab` structure and a
`Session` function; the MongoDB collections become association lists in
insertion order, with `find_one` as `List.find?` and `insert_one` as append.
Python exceptions become `Except` results; since a Python `raise` does not roll
back earlier mutations, stateful operations return `Model × Except PyErr α`.
-/

namespace RemoveOfftopic

/-- A URI (URI-M or URI-T) is a string. -/
abbrev URI := String

/-- An HTTP-like response as seen through the cached `requests` session:
status code, headers and body text. -/
structure Response where
  status : Nat
  headers : List (String × String)
  body : String
  deriving DecidableEq, Repr

/-- The `requests` exceptions relevant to this module.  `ConnectionError` and
`TooManyRedirects` are the two caught by `addMemento`; every other
`RequestException` (e.g. `Timeout`) is collapsed into one constructor. -/
inductive ReqError where
  | connectionError
  | tooManyRedirects
  | otherRequestException
  deriving DecidableEq, Repr

/-- `bytes(repr(e))` for an exception, as stored in the Error Store. -/
def reprReq : ReqError → String
  | .connectionError => "ConnectionError()"
  | .tooManyRedirects => "TooManyRedirects()"
  | .otherRequestException => "RequestException()"

/-- Python exceptions that can escape the embedded operations. -/
inductive PyErr where
  /-- an uncaught `requests` exception propagating out of `session.get` -/
  | reqError (e : ReqError)
  /-- `otmt.CollectionModelMementoErrorException` -/
  | mementoError
  /-- `otmt.CollectionModelNoSuchMementoException` -/
  | noSuchMemento
  /-- `otmt` raises this when a TimeMap was not registered -/
  | notRegistered
  /-- `CollectionModelBoilerPlateRemovalFailureException` -/
  | bpRemovalFailure (msg : String)
  /-- a Python `KeyError` (e.g. missing header) -/
  | keyError
  /-- a Python `IndexError` (e.g. `[0]` on an empty list) -/
  | indexError
  deriving DecidableEq, Repr

/-- Error information is `bytes` or `str` in the source; both become `String`. -/
abbrev ErrInfo := String

/-- A document of the `mementoerrors` collection. -/
structure ErrorRec where
  urim : URI
  error_information : ErrInfo
  deriving DecidableEq, Repr

/-- A document of the `bpfree` collection. -/
structure BpRec where
  urim : URI
  content : String
  algorithm : String
  deriving DecidableEq, Repr

/-- A document of the `derivedvalues` collection; the `"raw simhash"` field may
be absent (`KeyError` on access), hence the `Option`. -/
structure DerivedRec where
  urim : URI
  raw_simhash : Option String
  deriving DecidableEq, Repr

/-- The mutable state of a `HypercaneMementoCollectionModel`: the three MongoDB
collections plus the in-memory registration lists.  `justextCalls` and
`simhashCalls` are ghost counters incremented exactly where the source invokes
the boilerplate extractor and the fingerprinting function, so that claims about
"no new extraction" are expressible. -/
structure Model where
  error_collection : List ErrorRec
  bpfree_collection : List BpRec
  derived_collection : List DerivedRec
  urimlist : List URI
  uritlist : List URI
  justextCalls : Nat
  simhashCalls : Nat
  deriving DecidableEq, Repr

/-- The cached session: each `session.get(uri)` either returns a response or
raises a `requests` exception, deterministically per URI within a run. -/
abbrev Session := URI → Except ReqError Response

/-- The structured mapping produced by `aiu.convert_LinkTimeMap_to_dict`. -/
abbrev TimeMapDict := List (String × String)

/-- The external collaborators, uninterpreted. -/
structure Collab where
  /-- `otmt.generate_raw_urim` -/
  generate_raw_urim : URI → URI
  /-- `aiu.convert_LinkTimeMap_to_dict` -/
  convert_LinkTimeMap_to_dict : String → TimeMapDict
  /-- `justext(content, get_stoplist(english))`: paragraph texts, or a parse
  error (`lxml.etree.ParserError` / `XMLSyntaxError`) with its `repr` -/
  justext : String → Except String (List String)
  /-- `Simhash(content).value` -/
  simhash : String → Nat
  /-- `datetime.strptime(s, "%a, %d %b %Y %H:%M:%S GMT")`, as a comparable
  timestamp -/
  strptime : String → Nat

/-- `key in r.headers` for a `requests` header mapping. -/
def hasHeader (r : Response) (key : String) : Bool :=
  r.headers.any (fun p => p.1 == key)

/-- `headers[key]` lookup. -/
def headerGet (headers : List (String × String)) (key : String) : Option String :=
  (headers.find? (fun p => p.1 == key)).map (fun p => p.2)

/-! ## The collection model operations -/

/-- `addTimeMap`: fetches the TimeMap (populating the cache) and appends
`urit` to the registered TimeMap list; fetch failures propagate. -/
def addTimeMap (session : Session) (urit : URI) (m : Model) :
    Model × Except PyErr Unit :=
  match session urit with
  | .error e => (m, .error (.reqError e))
  | .ok _ => ({ m with uritlist := m.uritlist ++ [urit] }, .ok ())

/-- `getTimeMap`: `convert_LinkTimeMap_to_dict(self.session.get(urit).text)` —
note the source performs no registration check. -/
def getTimeMap (session : Session) (collab : Collab) (urit : URI)
    (_m : Model) : Except PyErr TimeMapDict :=
  match session urit with
  | .error e => .error (.reqError e)
  | .ok r => .ok (collab.convert_LinkTimeMap_to_dict r.body)

/-- `addMementoError`: `insert_one({"urim": urim, "error_information": info})`. -/
def addMementoError (urim : URI) (errorinformation : ErrInfo) (m : Model) :
    Model :=
  { m with error_collection :=
      m.error_collection ++ [⟨urim, errorinformation⟩] }

/-- `addMemento`: fetches `urim` and its raw counterpart; on `ConnectionError`
or `TooManyRedirects` records an Error Record instead; on success appends to
`urimlist`.  Other request exceptions are not caught and propagate. -/
def addMemento (session : Session) (collab : Collab) (urim : URI) (m : Model) :
    Model × Except PyErr Unit :=
  match session urim with
  | .error .connectionError =>
      (addMementoError urim (reprReq .connectionError) m, .ok ())
  | .error .tooManyRedirects =>
      (addMementoError urim (reprReq .tooManyRedirects) m, .ok ())
  | .error .otherRequestException =>
      (m, .error (.reqError .otherRequestException))
  | .ok _ =>
    match session (collab.generate_raw_urim urim) with
    | .error .connectionError =>
        (addMementoError urim (reprReq .connectionError) m, .ok ())
    | .error .tooManyRedirects =>
        (addMementoError urim (reprReq .tooManyRedirects) m, .ok ())
    | .error .otherRequestException =>
        (m, .error (.reqError .otherRequestException))
    | .ok _ => ({ m with urimlist := m.urimlist ++ [urim] }, .ok ())

/-- `getMementoContent`: `self.session.get(generate_raw_urim(urim)).text` —
the source performs no registration or error-store check despite its
docstring. -/
def getMementoContent (session : Session) (collab : Collab) (urim : URI)
    (_m : Model) : Except PyErr String :=
  match session (collab.generate_raw_urim urim) with
  | .error e => .error (.reqError e)
  | .ok r => .ok r.body

/-- `getMementoErrorInformation`: point lookup in the error collection.  When
no record exists the source returns `None` both when `urim` is registered
(explicit `return None`) and when it is not (falling off the function end). -/
def getMementoErrorInformation (m : Model) (urim : URI) : Option ErrInfo :=
  match m.error_collection.find? (fun r => r.urim == urim) with
  | none => if m.urimlist.contains urim then none else none
  | some result => some result.error_information

/-- `getMementoContentWithoutBoilerplate`: gated on the error store, memoized
in the `bpfree` collection, else runs `justext` over the raw content, joins the
paragraphs with `"\n"`, stores and returns the result. -/
def getMementoContentWithoutBoilerplate (session : Session) (collab : Collab)
    (urim : URI) (m : Model) : Model × Except PyErr String :=
  if (getMementoErrorInformation m urim).isSome then
    (m, .error .mementoError)
  else
    match m.bpfree_collection.find? (fun r => r.urim == urim) with
    | some bprecord => (m, .ok bprecord.content)
    | none =>
      match getMementoContent session collab urim m with
      | .error e => (m, .error e)
      | .ok content =>
        let m := { m with justextCalls := m.justextCalls + 1 }
        match collab.justext content with
        | .error e => (m, .error (.bpRemovalFailure e))
        | .ok paragraphs =>
          let content_without_boilerplate :=
            paragraphs.foldl (fun acc p => acc ++ p ++ "\n") ""
          ({ m with bpfree_collection := m.bpfree_collection ++
                [⟨urim, content_without_boilerplate, "justext"⟩] },
           .ok content_without_boilerplate)

/-- `update(..., {"$set": {"raw simhash": v}})`: sets the field on the first
matching document. -/
def setRawSimhash (urim : URI) (v : String) :
    List DerivedRec → List DerivedRec
  | [] => []
  | r :: rs =>
    if r.urim == urim then { r with raw_simhash := some v } :: rs
    else r :: setRawSimhash urim v rs

/-- `getRawSimhash`: gated on the error store; returns the memoized
`"raw simhash"` field when present; on a `KeyError` (record without the field)
or a missing record, fingerprints the raw content and stores `str(value)`. -/
def getRawSimhash (session : Session) (collab : Collab) (urim : URI)
    (m : Model) : Model × Except PyErr String :=
  if (getMementoErrorInformation m urim).isSome then
    (m, .error .mementoError)
  else
    match m.derived_collection.find? (fun r => r.urim == urim) with
    | some derived_record =>
      match derived_record.raw_simhash with
      | some raw_simhash => (m, .ok raw_simhash)
      | none =>
        match getMementoContent session collab urim m with
        | .error e => (m, .error e)
        | .ok content =>
          let raw_simhash := collab.simhash content
          ({ m with
              simhashCalls := m.simhashCalls + 1,
              derived_collection :=
                setRawSimhash urim (toString raw_simhash)
                  m.derived_collection },
           .ok (toString raw_simhash))
    | none =>
      match getMementoContent session collab urim m with
      | .error e => (m, .error e)
      | .ok content =>
        let raw_simhash := collab.simhash content
        ({ m with
            simhashCalls := m.simhashCalls + 1,
            derived_collection := m.derived_collection ++
              [⟨urim, some (toString raw_simhash)⟩] },
         .ok (toString raw_simhash))

/-- `getMementoHeaders`: `self.session.get(urim).headers`. -/
def getMementoHeaders (session : Session) (urim : URI) :
    Except PyErr (List (String × String)) :=
  match session urim with
  | .error e => .error (.reqError e)
  | .ok r => .ok r.headers

/-! ## Near-duplicate resolver: `getFirstURIMByRawSimhash` -/

/-- Python string `<`: lexicographic comparison of code points. -/
def strLtChars : List Char → List Char → Bool
  | [], [] => false
  | [], _ :: _ => true
  | _ :: _, [] => false
  | a :: as, b :: bs =>
    a.toNat < b.toNat || (a == b && strLtChars as bs)

/-- Python `<` on `(datetime, str)` tuples: lexicographic on the components. -/
def pairLt (a b : Nat × URI) : Bool :=
  a.1 < b.1 || (a.1 == b.1 && strLtChars a.2.data b.2.data)

/-- `a >= b` in the Python tuple order. -/
def pairGe (a b : Nat × URI) : Bool := !pairLt a b

/-- Insert into a descending-sorted list. -/
def insertDesc (x : Nat × URI) : List (Nat × URI) → List (Nat × URI)
  | [] => [x]
  | y :: ys => if pairGe x y then x :: y :: ys else y :: insertDesc x ys

/-- `sorted(l, reverse=True)` over `(datetime, str)` tuples. -/
def sortDesc (l : List (Nat × URI)) : List (Nat × URI) :=
  l.foldr insertDesc []

/-- Resolve `(capture_time, urim)` for one matching derived record: headers of
`urim` via the session, the `memento-datetime` header (a missing header is a
`KeyError`), parsed by `strptime`. -/
def resolvePair (session : Session) (collab : Collab) (urim : URI) :
    Except PyErr (Nat × URI) :=
  match getMementoHeaders session urim with
  | .error e => .error e
  | .ok headers =>
    match headerGet headers "memento-datetime" with
    | none => .error .keyError
    | some s => .ok (collab.strptime s, urim)

/-- The documents matched by `find({"raw simhash": raw_simhash})`: documents
lacking the field do not match. -/
def matchingDerived (m : Model) (raw_simhash : String) : List DerivedRec :=
  m.derived_collection.filter (fun r =>
    match r.raw_simhash with
    | some s => s == raw_simhash
    | none => false)

/-- `getFirstURIMByRawSimhash`: builds the `(memento-datetime, urim)` list over
all derived records sharing the fingerprint and returns
`sorted(matching_urims, reverse=True)[0]`. -/
def getFirstURIMByRawSimhash (session : Session) (collab : Collab)
    (raw_simhash : String) (m : Model) : Except PyErr (Nat × URI) :=
  match (matchingDerived m raw_simhash).mapM
      (fun r => resolvePair session collab r.urim) with
  | .error e => .error e
  | .ok matching_urims =>
    match sortDesc matching_urims with
    | [] => .error .indexError
    | first :: _ => .ok first

/-! ## Batch ingestion: `addManyMementos`

All futures are issued up front; the loop repeatedly draws a uniformly random
element of the live `working_urim_list` and, once its future has settled,
processes it.  The random draws are modelled by an arbitrary stream
`choices : Nat → Nat`, reduced modulo the current length of the pending list
(every index `random.choice` can produce is of this form).  The claims concern
runs in which every future has settled, so `futures` maps each URI directly to
its settled outcome. -/

/-- State of the `addManyMementos` loop: the live `working_urim_list` plus the
collection model. -/
structure BatchState where
  pending : List URI
  model : Model
  deriving Repr

/-- One iteration of the `for uri in uri_generator(working_urim_list)` loop
body, for the drawn element `pending[choice % len(pending)]` (a no-op on an
empty list, which the loop guard prevents anyway).  A settled response without
a `memento-datetime` header records an Error Record and the URI is removed; a
request exception records an Error Record and then `continue`s — skipping the
removal. -/
def batchStep (futures : URI → Except ReqError Response) (choice : Nat)
    (s : BatchState) : BatchState :=
  if s.pending.isEmpty then s
  else
    let uri := s.pending.getD (choice % s.pending.length) ""
    match futures uri with
    | .ok r =>
      let model :=
        if !hasHeader r "memento-datetime" then
          addMementoError uri
            ("URI-M " ++ uri ++ " does not produce a memento") s.model
        else s.model
      { pending := s.pending.erase uri, model := model }
    | .error e =>
      { s with model := addMementoError uri (reprReq e) s.model }

/-- The `while len(urilist) > 0` loop, fuel-bounded: runs `batchStep` with
successive draws from `choices` until the pending list is empty or the fuel
runs out. -/
def batchRun (futures : URI → Except ReqError Response) (choices : Nat → Nat) :
    Nat → BatchState → BatchState
  | 0, s => s
  | n + 1, s =>
    if s.pending.isEmpty then s
    else
      batchRun futures (fun i => choices (i + 1)) n
        (batchStep futures (choices 0) s)

/-- `addManyMementos` enters the loop with `working_urim_list = urims` and the
current model; nothing else in the function mutates the model. -/
def batchInit (urims : List URI) (m : Model) : BatchState :=
  { pending := urims, model := m }

/-! ## Off-topic classification: `detect_off_topic`

`otmt.MeasureModel` and the registered measure functions are external
collaborators (the `otmt` package), specified only through the interface the
engine needs; they are modelled from the spec below.  The code owned by the
repository — the measure loop with its early `return`, and `get_list_of_ontopic` —
is embedded faithfully. -/

/-- Modelled from the spec: the state accumulated by `otmt.MeasureModel` —
TimeMap membership, per-measure scores, per-measure on-topic verdicts after
thresholding, and the overall per-URI-M status.  (The `otmt` package is not
part of this repository.) -/
structure MeasureModel where
  timemaps : List (URI × List URI)
  scores : List (String × List (URI × Int))
  verdicts : List (String × List (URI × Bool))
  overall : List (URI × String)
  deriving Repr

/-- Modelled from the spec: a registered measure — a scoring function mapping
the collection model plus the running `MeasureModel` to an extended
`MeasureModel`, a comparison direction (`true` when a score at least the
threshold is on-topic), and the default number of topics for the
topic-model-based measures. -/
structure MeasureEntry where
  scoreFn : Model → Option Nat → MeasureModel → MeasureModel
  onTopicIfGe : Bool
  defaultNumTopics : Nat

/-- Modelled from the spec: `otmt.supported_timemap_measures` as a lookup from
measure name to its registry entry. -/
abbrev MeasureRegistry := String → MeasureEntry

/-- Modelled from the spec: `mm.calculate_offtopic_by_measure(...)` thresholds
the scores of the named measure by the comparison direction, recording one on-topic
verdict per scored URI-M. -/
def calculate_offtopic_by_measure (measure : String) (threshold : Int)
    (onTopicIfGe : Bool) (mm : MeasureModel) : MeasureModel :=
  let scored := ((mm.scores.find? (fun p => p.1 == measure)).map Prod.snd).getD []
  { mm with verdicts := mm.verdicts ++
      [(measure, scored.map (fun p =>
        (p.1, if onTopicIfGe then decide (threshold ≤ p.2)
              else decide (p.2 ≤ threshold))))] }

/-- Modelled from the spec: `mm.calculate_overall_offtopic_status()` marks a
URI-M "on-topic" exactly when every recorded measure verdict for it is
on-topic (logical AND across measures), and "off-topic" otherwise. -/
def calculate_overall_offtopic_status (mm : MeasureModel) : MeasureModel :=
  { mm with overall :=
      (mm.timemaps.flatMap Prod.snd).map (fun urim =>
        (urim, if mm.verdicts.all (fun v =>
            (((v.2.find? (fun p => p.1 == urim)).map Prod.snd).getD false))
          then "on-topic" else "off-topic")) }

/-- `get_overall_off_topic_status(urim)`: dictionary lookup; a missing entry is
a `KeyError`. -/
def get_overall_off_topic_status (mm : MeasureModel) (urim : URI) :
    Option String :=
  (mm.overall.find? (fun p => p.1 == urim)).map Prod.snd

/-- `get_list_of_ontopic`: scans TimeMap by TimeMap, memento by memento,
collecting URI-Ms whose overall status is "on-topic"; a `KeyError` (missing
status) is caught, logged and the URI-M skipped. -/
def get_list_of_ontopic (measuremodel : MeasureModel) : List URI :=
  (measuremodel.timemaps.flatMap Prod.snd).foldl
    (fun ontopic_mementos urim =>
      match get_overall_off_topic_status measuremodel urim with
      | none => ontopic_mementos
      | some status =>
        if status == "on-topic" then ontopic_mementos ++ [urim]
        else ontopic_mementos)
    []

/-- `detect_off_topic`: iterates over the supplied measures, scoring (with the
topic-count defaulting for `gensim_lda`/`gensim_lsi`), thresholding,
aggregating — and then executes `return` while still inside the loop body, so
the measures after the first are never visited; an empty mapping falls off the
end of the function (`None`). -/
def detect_off_topic (registry : MeasureRegistry) (collection_model : Model)
    (timemap_measures : List (String × Int)) (num_topics : Option Nat := none) :
    Option (List URI) :=
  match timemap_measures with
  | [] => none
  | (measure, threshold) :: _rest =>
    let entry := registry measure
    let mm : MeasureModel := ⟨[], [], [], []⟩
    let mm :=
      if measure == "gensim_lda" || measure == "gensim_lsi" then
        entry.scoreFn collection_model
          (some (num_topics.getD entry.defaultNumTopics)) mm
      else
        entry.scoreFn collection_model none mm
    let mm := calculate_offtopic_by_measure measure threshold
      entry.onTopicIfGe mm
    let mm := calculate_overall_offtopic_status mm
    some (get_list_of_ontopic mm)

/-! ## Concrete fixtures used by witnesses and counterexamples -/

/-- A model with fresh (empty) stores and registration lists. -/
def emptyModel : Model := ⟨[], [], [], [], [], 0, 0⟩

/-- A concrete collaborator instantiation for closed evaluations. -/
def demoCollab : Collab where
  generate_raw_urim := fun u => u ++ "?raw"
  convert_LinkTimeMap_to_dict := fun s => [(s, s)]
  justext := fun s => .ok [s]
  simhash := fun s => s.length
  strptime := fun s => s.length

/-- A session whose every fetch succeeds with a 404 error page carrying no
memento headers. -/
def sess404 : Session :=
  fun _ => .ok { status := 404, headers := [], body := "This capture does not exist" }

/-- A session returning a TimeMap body. -/
def sessTM : Session :=
  fun _ => .ok { status := 200, headers := [], body := "TIMEMAPBODY" }

/-- A model holding one Error Record for the URI-M `"u"`. -/
def erroredModel : Model := addMementoError "u" "ConnectionError()" emptyModel

/-! ## Helper lemmas -/

theorem find?_append_of_none {α} (p : α → Bool) (l₁ l₂ : List α)
    (h : l₁.find? p = none) : (l₁ ++ l₂).find? p = l₂.find? p := by
  rw [List.find?_append, h]
  rfl

/-- Both `find_one`-misses of `getMementoErrorInformation` return `None`, so
the operation is the plain `find_one` projection. -/
theorem getMementoErrorInformation_eq (m : Model) (u : URI) :
    getMementoErrorInformation m u =
      (m.error_collection.find? (fun r => r.urim == u)).map
        (fun r => r.error_information) := by
  unfold getMementoErrorInformation
  cases m.error_collection.find? (fun r => r.urim == u) <;> simp

/-- The error-store lookup only reads the error collection. -/
theorem getMementoErrorInformation_congr (m m₂ : Model) (u : URI)
    (he : m₂.error_collection = m.error_collection) :
    getMementoErrorInformation m₂ u = getMementoErrorInformation m u := by
  rw [getMementoErrorInformation_eq, getMementoErrorInformation_eq, he]

/-! ## The claims -/

/-- C9: for every URI-M `u`, `getMementoErrorInformation` returns `None` while
no Error Record for `u` exists — in particular when `u` was never registered
at all — and returns a non-`None` value after `addMementoError u x`. -/
theorem claim_C9_error_information_lifecycle (m : Model) (u : URI) (x : ErrInfo)
    (hpre : m.error_collection.find? (fun r => r.urim == u) = none) :
    getMementoErrorInformation m u = none ∧
    (getMementoErrorInformation (addMementoError u x m) u).isSome = true := by
  refine ⟨?_, ?_⟩
  · rw [getMementoErrorInformation_eq, hpre]
    rfl
  · rw [getMementoErrorInformation_eq]
    unfold addMementoError
    rw [find?_append_of_none _ _ _ hpre]
    simp

/-- C9 witness: concrete run on a fresh model. -/
theorem claim_C9_witness :
    getMementoErrorInformation emptyModel "https://archive.example/m1" = none ∧
    (getMementoErrorInformation
      (addMementoError "https://archive.example/m1" "ConnectionError()"
        emptyModel)
      "https://archive.example/m1").isSome = true :=
  claim_C9_error_information_lifecycle emptyModel
    "https://archive.example/m1" "ConnectionError()" rfl

/-- C10: whenever both fetches return a response — whatever its status code or
headers — `addMemento` appends the URI-M to the registered list: only
`ConnectionError` and `TooManyRedirects` divert into error recording. -/
theorem claim_C10_addMemento_registers_any_response (session : Session)
    (collab : Collab) (urim : URI) (m : Model) (r₁ r₂ : Response)
    (h₁ : session urim = .ok r₁)
    (h₂ : session (collab.generate_raw_urim urim) = .ok r₂) :
    addMemento session collab urim m =
      ({ m with urimlist := m.urimlist ++ [urim] }, .ok ()) := by
  unfold addMemento
  rw [h₁, h₂]

/-- C10 witness: a 404 error page with no memento headers is still
registered. -/
theorem claim_C10_witness :
    addMemento sess404 demoCollab "https://archive.example/m1" emptyModel =
      ({ emptyModel with urimlist := ["https://archive.example/m1"] },
       .ok ()) :=
  claim_C10_addMemento_registers_any_response sess404 demoCollab
    "https://archive.example/m1" emptyModel
    { status := 404, headers := [], body := "This capture does not exist" }
    { status := 404, headers := [], body := "This capture does not exist" }
    rfl rfl

/-- C4 (code bug): `getMementoContent` is documented — in its own docstring —
to raise `NoSuchMemento` for unregistered URI-Ms and `MementoError` for
errored ones, but the code performs neither check: at a URI-M that carries an
Error Record and was never registered, it still returns the fetched body. -/
theorem claim_C4_getMementoContent_ignores_error_store :
    (getMementoErrorInformation erroredModel "u").isSome = true ∧
    erroredModel.urimlist = [] ∧
    getMementoContent sess404 demoCollab "u" erroredModel =
      .ok "This capture does not exist" :=
  ⟨rfl, rfl, rfl⟩

/-- C5: a URI-M with an Error Record is rejected by both
`getMementoContentWithoutBoilerplate` and `getRawSimhash` with
`MementoError`, the model — including the extractor and fingerprint call
counters — left untouched: neither collaborator is invoked. -/
theorem claim_C5_error_record_gates_content_ops (session : Session)
    (collab : Collab) (urim : URI) (m : Model)
    (h : (getMementoErrorInformation m urim).isSome = true) :
    getMementoContentWithoutBoilerplate session collab urim m =
      (m, .error .mementoError) ∧
    getRawSimhash session collab urim m = (m, .error .mementoError) := by
  refine ⟨?_, ?_⟩
  · unfold getMementoContentWithoutBoilerplate
    rw [h]
    rfl
  · unfold getRawSimhash
    rw [h]
    rfl

/-- C5 witness: concrete errored model. -/
theorem claim_C5_witness :
    getMementoContentWithoutBoilerplate sess404 demoCollab "u" erroredModel =
      (erroredModel, .error .mementoError) ∧
    getRawSimhash sess404 demoCollab "u" erroredModel =
      (erroredModel, .error .mementoError) :=
  claim_C5_error_record_gates_content_ops sess404 demoCollab "u"
    erroredModel rfl

/-- C8 counterexample: a URI-T that was never added via `addTimeMap` does not
make `getTimeMap` fail — the code performs no registration check and happily
parses the fetched body, so the NotRegistered clause of the claim is false. -/
theorem claim_C8_counterexample :
    emptyModel.uritlist = [] ∧
    getTimeMap sessTM demoCollab "https://archive.example/tm1" emptyModel =
      .ok [("TIMEMAPBODY", "TIMEMAPBODY")] :=
  ⟨rfl, rfl⟩

/-- C8 (amended): `getTimeMap` returns the structured mapping parsed from the
fetched TimeMap body for every URI-T, registered or not; no `NotRegistered`
failure is ever produced, the only failure mode being a fetch exception. -/
theorem claim_C8_amended_getTimeMap_no_registration_gate (session : Session)
    (collab : Collab) (urit : URI) (m : Model) (r : Response)
    (hunreg : urit ∉ m.uritlist) (hfetch : session urit = .ok r) :
    getTimeMap session collab urit m =
      .ok (collab.convert_LinkTimeMap_to_dict r.body) := by
  unfold getTimeMap
  rw [hfetch]

/-- C8 witness: the amended claim evaluated on a fresh model. -/
theorem claim_C8_witness :
    getTimeMap sessTM demoCollab "https://archive.example/tm1" emptyModel =
      .ok (demoCollab.convert_LinkTimeMap_to_dict "TIMEMAPBODY") :=
  claim_C8_amended_getTimeMap_no_registration_gate sessTM demoCollab
    "https://archive.example/tm1" emptyModel
    { status := 200, headers := [], body := "TIMEMAPBODY" }
    (List.not_mem_nil _) rfl

/-- A `$set` of the fingerprint field on the first matching derived record is
what a later `find_one` for the same URI-M returns. -/
theorem find?_setRawSimhash (u : URI) (v : String) (l : List DerivedRec)
    (dr : DerivedRec) (h : l.find? (fun r => r.urim == u) = some dr) :
    (setRawSimhash u v l).find? (fun r => r.urim == u) =
      some { dr with raw_simhash := some v } := by
  induction l with
  | nil => simp at h
  | cons r rs ih =>
    unfold setRawSimhash
    by_cases hr : (r.urim == u) = true
    · rw [@List.find?_cons_of_pos _ (fun r => r.urim == u) r rs hr] at h
      injection h with h
      subst h
      rw [if_pos hr]
      exact @List.find?_cons_of_pos _ (fun r => r.urim == u)
        ⟨r.urim, some v⟩ rs hr
    · rw [@List.find?_cons_of_neg _ (fun r => r.urim == u) r rs hr] at h
      rw [if_neg hr, @List.find?_cons_of_neg _ (fun r => r.urim == u) r _ hr]
      exact ih h

/-- C6: `getMementoContentWithoutBoilerplate` is idempotent — a successful
call memoizes its result, and the call repeated on the resulting model
returns the identical text with the model (extractor call counter included)
unchanged, so no new extraction happens and no populated field is ever
recomputed or overwritten; likewise for the fingerprint field and
`getRawSimhash`. -/
theorem claim_C6_memoized_idempotent (session : Session) (collab : Collab)
    (u : URI) (m mb ms : Model) (t v : String) :
    (getMementoContentWithoutBoilerplate session collab u m = (mb, .ok t) →
      getMementoContentWithoutBoilerplate session collab u mb = (mb, .ok t)) ∧
    (getRawSimhash session collab u m = (ms, .ok v) →
      getRawSimhash session collab u ms = (ms, .ok v)) := by
  constructor
  · intro h
    unfold getMementoContentWithoutBoilerplate at h ⊢
    cases hg : (getMementoErrorInformation m u).isSome with
    | true => rw [hg] at h; simp at h
    | false =>
      rw [hg] at h
      simp only [Bool.false_eq_true, if_false] at h
      cases hf : m.bpfree_collection.find? (fun r => r.urim == u) with
      | some bprecord =>
        simp only [hf] at h
        injection h with h₁ h₂
        injection h₂ with h₂
        subst h₁
        subst h₂
        simp only [hg, Bool.false_eq_true, if_false, hf]
      | none =>
        simp only [hf] at h
        cases hc : getMementoContent session collab u m with
        | error e => simp only [hc] at h; simp at h
        | ok content =>
          simp only [hc] at h
          cases hj : collab.justext content with
          | error e => simp only [hj] at h; simp at h
          | ok paragraphs =>
            simp only [hj] at h
            injection h with h₁ h₂
            injection h₂ with h₂
            subst h₁
            subst h₂
            have hg₂ : (getMementoErrorInformation
                { m with
                    justextCalls := m.justextCalls + 1,
                    bpfree_collection := m.bpfree_collection ++
                      [⟨u, paragraphs.foldl (fun acc p => acc ++ p ++ "\n") "",
                        "justext"⟩] } u).isSome = false := hg
            rw [hg₂]
            simp only [Bool.false_eq_true, if_false]
            rw [find?_append_of_none _ _ _ hf]
            simp [List.find?_cons]
  · intro h
    unfold getRawSimhash at h ⊢
    cases hg : (getMementoErrorInformation m u).isSome with
    | true => rw [hg] at h; simp at h
    | false =>
      rw [hg] at h
      simp only [Bool.false_eq_true, if_false] at h
      cases hf : m.derived_collection.find? (fun r => r.urim == u) with
      | some derived_record =>
        simp only [hf] at h
        cases hrs : derived_record.raw_simhash with
        | some raw_simhash =>
          simp only [hrs] at h
          injection h with h₁ h₂
          injection h₂ with h₂
          subst h₁
          subst h₂
          simp only [hg, Bool.false_eq_true, if_false, hf, hrs]
        | none =>
          simp only [hrs] at h
          cases hc : getMementoContent session collab u m with
          | error e => simp only [hc] at h; simp at h
          | ok content =>
            simp only [hc] at h
            injection h with h₁ h₂
            injection h₂ with h₂
            subst h₁
            subst h₂
            have hg₂ : (getMementoErrorInformation
                { m with
                    simhashCalls := m.simhashCalls + 1,
                    derived_collection :=
                      setRawSimhash u (toString (collab.simhash content))
                        m.derived_collection } u).isSome = false := hg
            rw [hg₂]
            simp only [Bool.false_eq_true, if_false]
            rw [find?_setRawSimhash u _ _ _ hf]
      | none =>
        simp only [hf] at h
        cases hc : getMementoContent session collab u m with
        | error e => simp only [hc] at h; simp at h
        | ok content =>
          simp only [hc] at h
          injection h with h₁ h₂
          injection h₂ with h₂
          subst h₁
          subst h₂
          have hg₂ : (getMementoErrorInformation
              { m with
                  simhashCalls := m.simhashCalls + 1,
                  derived_collection := m.derived_collection ++
                    [⟨u, some (toString (collab.simhash content))⟩] }
                u).isSome = false := hg
          rw [hg₂]
          simp only [Bool.false_eq_true, if_false]
          rw [find?_append_of_none _ _ _ hf]
          simp [List.find?_cons]

/-- A session delivering a well-formed memento with body `"hello"`. -/
def sessBody : Session :=
  fun _ => .ok
    { status := 200,
      headers := [("memento-datetime", "Thu, 01 Jan 2020 00:00:00 GMT")],
      body := "hello" }

/-- C6 witness: a concrete first call on a fresh model; the repeated call
returns the identical memoized text and fingerprint with the model unchanged. -/
theorem claim_C6_witness :
    getMementoContentWithoutBoilerplate sessBody demoCollab "u"
        (getMementoContentWithoutBoilerplate sessBody demoCollab "u"
          emptyModel).1 =
      ((getMementoContentWithoutBoilerplate sessBody demoCollab "u"
          emptyModel).1, .ok "hello\n") ∧
    getRawSimhash sessBody demoCollab "u"
        (getRawSimhash sessBody demoCollab "u" emptyModel).1 =
      ((getRawSimhash sessBody demoCollab "u" emptyModel).1, .ok "5") :=
  ⟨(claim_C6_memoized_idempotent sessBody demoCollab "u" emptyModel
      (getMementoContentWithoutBoilerplate sessBody demoCollab "u"
        emptyModel).1
      (getRawSimhash sessBody demoCollab "u" emptyModel).1
      "hello\n" "5").1 (by rfl),
   (claim_C6_memoized_idempotent sessBody demoCollab "u" emptyModel
      (getMementoContentWithoutBoilerplate sessBody demoCollab "u"
        emptyModel).1
      (getRawSimhash sessBody demoCollab "u" emptyModel).1
      "hello\n" "5").2 (by rfl)⟩

/-! ## Batch ingestion claims -/

/-- A future that settles with a generic `RequestException` (e.g. a timeout),
for every URI. -/
def exnFutures : URI → Except ReqError Response :=
  fun _ => .error .otherRequestException

/-- Futures that all settle with a response; the response carries the
`memento-datetime` header exactly when `valid` holds for the URI. -/
def okFutures (valid : URI → Bool) : URI → Except ReqError Response :=
  fun u => .ok
    { status := 200,
      headers :=
        if valid u then [("memento-datetime", "Thu, 01 Jan 2020 00:00:00 GMT")]
        else [],
      body := "" }

/-- One unfolding of the fuel-bounded loop. -/
theorem batchRun_succ (futures : URI → Except ReqError Response)
    (choices : Nat → Nat) (n : Nat) (s : BatchState) :
    batchRun futures choices (n + 1) s =
      if s.pending.isEmpty then s
      else
        batchRun futures (fun i => choices (i + 1)) n
          (batchStep futures (choices 0) s) := by
  rfl

theorem hasHeader_okFutures (valid : URI → Bool) (u : URI) (r : Response)
    (h : okFutures valid u = .ok r) :
    hasHeader r "memento-datetime" = valid u := by
  unfold okFutures at h
  injection h with h
  subst h
  cases hv : valid u <;> simp [hasHeader, hv]

theorem countP_erase_of_mem (p : URI → Bool) (l : List URI) (u : URI)
    (hu : u ∈ l) :
    (l.erase u).countP p = l.countP p - (if p u then 1 else 0) := by
  induction l with
  | nil => cases hu
  | cons a as ih =>
    rw [List.erase_cons]
    by_cases ha : (a == u) = true
    · have haeq : a = u := eq_of_beq ha
      subst haeq
      rw [if_pos ha, List.countP_cons]
      omega
    · rw [if_neg ha]
      have hu2 : u ∈ as := by
        cases hu with
        | head => exact absurd (by simp) ha
        | tail _ h => exact h
      rw [List.countP_cons, List.countP_cons, ih hu2]
      by_cases hpu : p u = true
      · have : 0 < as.countP p :=
          List.countP_pos_iff.mpr ⟨u, hu2, hpu⟩
        simp only [hpu, if_true]
        omega
      · simp only [Bool.not_eq_true] at hpu
        simp only [hpu, Bool.false_eq_true, if_false]
        omega

/-- When every future has settled with a response, each loop iteration
removes the drawn URI-M, adds an Error Record exactly when the response fails
header validation, and never touches the registered URI-M list; running the
loop for as many steps as there are pending URI-Ms therefore drains the
pending set, whatever the random draws. -/
theorem batchRun_okFutures_drains (valid : URI → Bool) :
    ∀ (n : Nat) (s : BatchState) (choices : Nat → Nat),
      s.pending.length = n →
      (batchRun (okFutures valid) choices n s).pending = [] ∧
      (batchRun (okFutures valid) choices n s).model.error_collection.length
        = s.model.error_collection.length +
          s.pending.countP (fun u => !valid u) ∧
      (batchRun (okFutures valid) choices n s).model.urimlist
        = s.model.urimlist := by
  intro n
  induction n with
  | zero =>
    intro s choices hn
    have hp : s.pending = [] := List.length_eq_zero.mp hn
    simp [batchRun, hp]
  | succ n ih =>
    intro s choices hn
    have hne : s.pending.isEmpty = false := by
      cases hp : s.pending with
      | nil => rw [hp] at hn; simp at hn
      | cons a as => rfl
    have hlt : choices 0 % s.pending.length < s.pending.length := by
      rw [hn]; exact Nat.mod_lt _ (Nat.succ_pos n)
    set uri := s.pending.getD (choices 0 % s.pending.length) "" with huri
    have hmem : uri ∈ s.pending := by
      rw [huri, List.getD_eq_getElem?_getD, List.getElem?_eq_getElem hlt]
      exact List.getElem_mem hlt
    obtain ⟨r, hr⟩ : ∃ r, okFutures valid uri = .ok r := ⟨_, rfl⟩
    have hstep : batchStep (okFutures valid) (choices 0) s =
        { pending := s.pending.erase uri,
          model :=
            if !valid uri then
              addMementoError uri
                ("URI-M " ++ uri ++ " does not produce a memento") s.model
            else s.model } := by
      unfold batchStep
      rw [hne]
      simp only [Bool.false_eq_true, if_false]
      rw [← huri, hr]
      simp only [hasHeader_okFutures valid uri r hr]
    have hlen : (batchStep (okFutures valid) (choices 0) s).pending.length
        = n := by
      rw [hstep]
      have := List.length_erase_of_mem hmem
      rw [this, hn]
      rfl
    have hrun : batchRun (okFutures valid) choices (n + 1) s =
        batchRun (okFutures valid) (fun i => choices (i + 1)) n
          (batchStep (okFutures valid) (choices 0) s) := by
      rw [batchRun_succ, hne]
      simp
    obtain ⟨ih1, ih2, ih3⟩ :=
      ih (batchStep (okFutures valid) (choices 0) s)
        (fun i => choices (i + 1)) hlen
    refine ⟨by rw [hrun]; exact ih1, ?_, ?_⟩
    · rw [hrun, ih2, hstep]
      have hcount : (s.pending.erase uri).countP (fun u => !valid u)
          = s.pending.countP (fun u => !valid u) -
            (if !valid uri then 1 else 0) :=
        countP_erase_of_mem _ _ _ hmem
      cases hv : valid uri with
      | true =>
        simp only [hv, Bool.not_true, Bool.false_eq_true, if_false]
        simp only [hv, Bool.not_true] at hcount
        simp only [Bool.false_eq_true, if_false] at hcount
        rw [hcount]
        omega
      | false =>
        have hpos : 0 < s.pending.countP (fun u => !valid u) :=
          List.countP_pos_iff.mpr ⟨uri, hmem, by rw [hv]; rfl⟩
        simp only [hv, Bool.not_false, if_true]
        simp only [hv, Bool.not_false, if_true] at hcount
        unfold addMementoError
        simp only [List.length_append, List.length_cons, List.length_nil]
        rw [hcount]
        omega
    · rw [hrun, ih3, hstep]
      cases hv : valid uri with
      | true => simp [hv]
      | false => simp [hv, addMementoError]

/-- C2 (code bug): a URI-M whose future settles with a `RequestException` is
never removed from the pending working set — the `continue` in the exception
branch skips the removal — so the loop never terminates and appends one more
duplicate Error Record on every revisit, for every draw sequence. -/
theorem claim_C2_request_exception_never_dropped (u : URI) (m : Model)
    (choices : Nat → Nat) (n : Nat) :
    (batchRun exnFutures choices n (batchInit [u] m)).pending = [u] ∧
    (batchRun exnFutures choices n
        (batchInit [u] m)).model.error_collection.length
      = m.error_collection.length + n := by
  induction n generalizing choices m with
  | zero => exact ⟨rfl, rfl⟩
  | succ n ih =>
    have hstep : batchStep exnFutures (choices 0) (batchInit [u] m) =
        batchInit [u]
          (addMementoError u (reprReq .otherRequestException) m) := by
      unfold batchStep batchInit exnFutures
      simp [List.getD, Nat.mod_one]
    have hrun : batchRun exnFutures choices (n + 1) (batchInit [u] m) =
        batchRun exnFutures (fun i => choices (i + 1)) n
          (batchInit [u]
            (addMementoError u (reprReq .otherRequestException) m)) := by
      rw [batchRun_succ, ← hstep]
      rfl
    obtain ⟨ih1, ih2⟩ :=
      ih (addMementoError u (reprReq .otherRequestException) m)
        (fun i => choices (i + 1))
    refine ⟨by rw [hrun]; exact ih1, ?_⟩
    rw [hrun, ih2]
    unfold addMementoError
    simp only [List.length_append, List.length_cons, List.length_nil]
    omega

/-- The ten URI-Ms of the convergence scenario. -/
def tenURIMs : List URI :=
  ["https://archive.example/m0", "https://archive.example/m1",
   "https://archive.example/m2", "https://archive.example/m3",
   "https://archive.example/m4", "https://archive.example/m5",
   "https://archive.example/m6", "https://archive.example/m7",
   "https://archive.example/m8", "https://archive.example/m9"]

/-- Validation outcome: the first three URI-Ms always fail header validation,
the other seven always succeed. -/
def validTen : URI → Bool := fun u =>
  !(u == "https://archive.example/m0" || u == "https://archive.example/m1" ||
    u == "https://archive.example/m2")

/-- C3 (code bug): with 10 URI-Ms of which 3 always fail header validation
and 7 always succeed, the loop terminates after 10 draws with exactly 3 Error
Records for every draw order — but the registered URI-M list is left exactly
as it was: `addManyMementos` never appends to `urimlist`, so the engine ends
with 0 new registered entries, not 7. -/
theorem claim_C3_batch_three_errors_zero_registered (choices : Nat → Nat)
    (m : Model) :
    (batchRun (okFutures validTen) choices 10
        (batchInit tenURIMs m)).pending = [] ∧
    (batchRun (okFutures validTen) choices 10
        (batchInit tenURIMs m)).model.error_collection.length
      = m.error_collection.length + 3 ∧
    (batchRun (okFutures validTen) choices 10
        (batchInit tenURIMs m)).model.urimlist = m.urimlist := by
  obtain ⟨h1, h2, h3⟩ :=
    batchRun_okFutures_drains validTen 10 (batchInit tenURIMs m) choices rfl
  refine ⟨h1, ?_, h3⟩
  rw [h2]
  show m.error_collection.length +
      List.countP (fun u => !validTen u) tenURIMs
    = m.error_collection.length + 3
  have hc : List.countP (fun u => !validTen u) tenURIMs = 3 := by decide
  rw [hc]

/-! ## Near-duplicate resolver claim -/

theorem strLtChars_irrefl (s : List Char) : strLtChars s s = false := by
  induction s with
  | nil => rfl
  | cons a as ih => simp [strLtChars, ih]

theorem strLtChars_trans {a b c : List Char} (h₁ : strLtChars a b = true)
    (h₂ : strLtChars b c = true) : strLtChars a c = true := by
  induction a generalizing b c with
  | nil => cases b <;> cases c <;> simp_all [strLtChars]
  | cons x xs ih =>
    cases b with
    | nil => simp [strLtChars] at h₁
    | cons y ys =>
      cases c with
      | nil => simp [strLtChars] at h₂
      | cons z zs =>
        simp only [strLtChars, Bool.or_eq_true, Bool.and_eq_true,
          decide_eq_true_eq, beq_iff_eq] at h₁ h₂ ⊢
        rcases h₁ with h₁ | ⟨rfl, h₁⟩
        · rcases h₂ with h₂ | ⟨rfl, h₂⟩
          · exact Or.inl (Nat.lt_trans h₁ h₂)
          · exact Or.inl h₁
        · rcases h₂ with h₂ | ⟨rfl, h₂⟩
          · exact Or.inl h₂
          · exact Or.inr ⟨rfl, ih h₁ h₂⟩

theorem strLtChars_trichot (a b : List Char) :
    a = b ∨ strLtChars a b = true ∨ strLtChars b a = true := by
  induction a generalizing b with
  | nil => cases b <;> simp [strLtChars]
  | cons x xs ih =>
    cases b with
    | nil => simp [strLtChars]
    | cons y ys =>
      rcases Nat.lt_trichotomy x.toNat y.toNat with h | h | h
      · exact Or.inr (Or.inl (by simp [strLtChars, h]))
      · have hxy : x = y := Char.ext (UInt32.ext h)
        subst hxy
        rcases ih ys with h₂ | h₂ | h₂
        · exact Or.inl (by rw [h₂])
        · exact Or.inr (Or.inl (by simp [strLtChars, h₂]))
        · exact Or.inr (Or.inr (by simp [strLtChars, h₂]))
      · exact Or.inr (Or.inr (by simp [strLtChars, h]))

theorem pairLt_irrefl (a : Nat × URI) : pairLt a a = false := by
  simp [pairLt, strLtChars_irrefl]

theorem pairLt_trans {a b c : Nat × URI} (h₁ : pairLt a b = true)
    (h₂ : pairLt b c = true) : pairLt a c = true := by
  simp only [pairLt, Bool.or_eq_true, Bool.and_eq_true, decide_eq_true_eq,
    beq_iff_eq] at h₁ h₂ ⊢
  rcases h₁ with h₁ | ⟨he₁, h₁⟩
  · rcases h₂ with h₂ | ⟨he₂, h₂⟩
    · exact Or.inl (Nat.lt_trans h₁ h₂)
    · exact Or.inl (he₂ ▸ h₁)
  · rcases h₂ with h₂ | ⟨he₂, h₂⟩
    · exact Or.inl (he₁ ▸ h₂)
    · exact Or.inr ⟨he₁.trans he₂, strLtChars_trans h₁ h₂⟩

theorem pairLt_trichot (a b : Nat × URI) :
    a = b ∨ pairLt a b = true ∨ pairLt b a = true := by
  rcases Nat.lt_trichotomy a.1 b.1 with h | h | h
  · exact Or.inr (Or.inl (by simp [pairLt, h]))
  · rcases strLtChars_trichot a.2.data b.2.data with h₂ | h₂ | h₂
    · exact Or.inl (Prod.ext h (String.ext h₂))
    · exact Or.inr (Or.inl (by simp [pairLt, h, h₂]))
    · exact Or.inr (Or.inr (by simp [pairLt, h.symm, h₂]))
  · exact Or.inr (Or.inr (by simp [pairLt, h]))

theorem pairGe_refl (a : Nat × URI) : pairGe a a = true := by
  simp [pairGe, pairLt_irrefl]

theorem pairGe_of_not_pairGe {a b : Nat × URI} (h : ¬ pairGe a b = true) :
    pairGe b a = true := by
  have hab : pairLt a b = true := by
    cases hv : pairLt a b with
    | true => rfl
    | false => exact absurd (by simp [pairGe, hv]) h
  cases hv : pairLt b a with
  | false => simp [pairGe, hv]
  | true =>
    have hself := pairLt_trans hab hv
    rw [pairLt_irrefl] at hself
    exact Bool.noConfusion hself

theorem pairGe_trans {a b c : Nat × URI} (h₁ : pairGe a b = true)
    (h₂ : pairGe b c = true) : pairGe a c = true := by
  have hab : pairLt a b = false := by simpa [pairGe] using h₁
  have hbc : pairLt b c = false := by simpa [pairGe] using h₂
  have hac : pairLt a c = false := by
    cases hv : pairLt a c with
    | false => rfl
    | true =>
      rcases pairLt_trichot a b with rfl | h | h
      · rw [hv] at hbc
        exact Bool.noConfusion hbc
      · rw [h] at hab
        exact Bool.noConfusion hab
      · have hlt := pairLt_trans h hv
        rw [hlt] at hbc
        exact Bool.noConfusion hbc
  simp [pairGe, hac]

/-- The head of the descending sort is a member and a maximum of the list in
the composite `(capture_time, uri_m)` order. -/
theorem sortDesc_spec (l : List (Nat × URI)) :
    l = [] ∨ ∃ hd tl, sortDesc l = hd :: tl ∧ hd ∈ l ∧
      ∀ y ∈ l, pairGe hd y = true := by
  induction l with
  | nil => exact Or.inl rfl
  | cons x xs ih =>
    right
    rcases ih with hnil | ⟨hd, tl, hsort, hmem, hmax⟩
    · subst hnil
      refine ⟨x, [], rfl, List.mem_singleton.mpr rfl, ?_⟩
      intro y hy
      rw [List.mem_singleton] at hy
      subst hy
      exact pairGe_refl y
    · have hstep : sortDesc (x :: xs) = insertDesc x (sortDesc xs) := rfl
      rw [hstep, hsort]
      unfold insertDesc
      by_cases hx : pairGe x hd = true
      · rw [if_pos hx]
        refine ⟨x, hd :: tl, rfl, List.mem_cons_self x xs, ?_⟩
        intro y hy
        rcases List.mem_cons.mp hy with rfl | hy₂
        · exact pairGe_refl y
        · exact pairGe_trans hx (hmax y hy₂)
      · rw [if_neg hx]
        refine ⟨hd, insertDesc x tl, rfl, List.mem_cons_of_mem x hmem, ?_⟩
        intro y hy
        rcases List.mem_cons.mp hy with rfl | hy₂
        · exact pairGe_of_not_pairGe hx
        · exact hmax y hy₂

/-- C7: when at least one Derived Record shares the fingerprint and the
`(memento-datetime, urim)` pairs resolve, `getFirstURIMByRawSimhash` returns
a pair that belongs to the group and dominates every member in the composite
`(capture_time, uri_m)` order — most recent capture time first, ties broken
by the lexicographically largest URI-M, through the descending tuple sort. -/
theorem claim_C7_most_recent_capture_wins (session : Session) (collab : Collab)
    (fp : String) (m : Model) (pairs : List (Nat × URI))
    (hres : (matchingDerived m fp).mapM
        (fun r => resolvePair session collab r.urim) = .ok pairs)
    (hne : pairs ≠ []) :
    ∃ best, getFirstURIMByRawSimhash session collab fp m = .ok best ∧
      best ∈ pairs ∧ ∀ y ∈ pairs, pairGe best y = true := by
  unfold getFirstURIMByRawSimhash
  simp only [hres]
  rcases sortDesc_spec pairs with h | ⟨hd, tl, hsort, hmem, hmax⟩
  · exact absurd h hne
  · simp only [hsort]
    exact ⟨hd, rfl, hmem, hmax⟩

/-- Derived-value store holding two URI-Ms with the same fingerprint. -/
def dupModel : Model :=
  { emptyModel with derived_collection :=
      [⟨"https://archive.example/mA", some "F"⟩,
       ⟨"https://archive.example/mB", some "F"⟩] }

/-- Session resolving the two duplicate URI-Ms to distinct capture-time
headers (parsed by the demo `strptime`, which measures header length). -/
def sessDup : Session := fun u => .ok
  { status := 200,
    headers := [("memento-datetime",
      if u == "https://archive.example/mA" then "aa" else "bbbb")],
    body := "" }

/-- C7 witness: of the two group members, the one with the more recent
capture time wins. -/
theorem claim_C7_witness :
    ∃ best, getFirstURIMByRawSimhash sessDup demoCollab "F" dupModel =
        .ok best ∧
      best ∈ [((2 : Nat), ("https://archive.example/mA" : URI)),
              (4, "https://archive.example/mB")] ∧
      ∀ y ∈ [((2 : Nat), ("https://archive.example/mA" : URI)),
             (4, "https://archive.example/mB")], pairGe best y = true :=
  claim_C7_most_recent_capture_wins sessDup demoCollab "F" dupModel
    [(2, "https://archive.example/mA"), (4, "https://archive.example/mB")]
    (by rfl) (by simp)

/-! ## Classification claim -/

/-- Two concrete registered measures over a one-memento collection: under
`cosine` with threshold 0 the memento scores 1 (on-topic); under `wordcount`
with threshold 1 it scores 0 (off-topic). -/
def demoRegistry : MeasureRegistry := fun name =>
  if name == "cosine" then
    { scoreFn := fun _ _ mm =>
        { mm with
            timemaps := [("https://archive.example/tm1",
              ["https://archive.example/m1"])],
            scores := mm.scores ++
              [("cosine", [("https://archive.example/m1", 1)])] },
      onTopicIfGe := true,
      defaultNumTopics := 2 }
  else
    { scoreFn := fun _ _ mm =>
        { mm with
            timemaps := [("https://archive.example/tm1",
              ["https://archive.example/m1"])],
            scores := mm.scores ++
              [("wordcount", [("https://archive.example/m1", 0)])] },
      onTopicIfGe := true,
      defaultNumTopics := 2 }

/-- C1 (code bug): `detect_off_topic` returns from inside the measure loop,
so only the first supplied measure is ever scored and thresholded.  With the
two measures above, the URI-M fails `wordcount` alone (second conjunct), yet
the two-measure run still reports it on-topic (first conjunct) — the AND
across measures never happens — and the result is unchanged by whatever
measures follow the first (third conjunct). -/
theorem claim_C1_detect_off_topic_stops_after_first_measure :
    detect_off_topic demoRegistry emptyModel
        [("cosine", 0), ("wordcount", 1)] none =
      some ["https://archive.example/m1"] ∧
    detect_off_topic demoRegistry emptyModel [("wordcount", 1)] none =
      some [] ∧
    ∀ rest : List (String × Int),
      detect_off_topic demoRegistry emptyModel (("cosine", 0) :: rest) none =
        some ["https://archive.example/m1"] :=
  ⟨rfl, rfl, fun _ => rfl⟩

end RemoveOfftopic
